import Mathlib

/-!
Verification of the DreamingSpanishStats analytics core.

The Python source manipulates a pandas DataFrame whose rows are daily viewing
records sorted ascending by date.  We embed each pandas operation used by the
analytics pipeline as an explicit function on Lean lists: the `seconds` column
becomes a `List ℕ` (seconds watched are non-negative integers), full daily
records become a `List DailyRecord`, and float arithmetic is idealised over `ℚ`
except where IEEE behaviour matters (division by a zero rate), which is
modelled explicitly by `PyFloat`.  Operations that fault or produce NaN on an
empty frame are modelled with `Option`.
-/

namespace DSStats

/-! ## Cumulative columns (main.py:124-126) -/

/-- Embedding of `pandas.Series.cumsum`: running sum carrying the accumulator. -/
def cumsumFrom (acc : ℕ) : List ℕ → List ℕ
  | [] => []
  | x :: xs => (acc + x) :: cumsumFrom (acc + x) xs

/-- `df["cumulative_seconds"] = df["seconds"].cumsum() + initial_time` (main.py:124). -/
def cumulative_seconds (secs : List ℕ) (initial_time : ℕ) : List ℕ :=
  (cumsumFrom 0 secs).map (fun n => n + initial_time)

/-- `df["cumulative_minutes"] = df["cumulative_seconds"] / 60` (main.py:125). -/
def cumulative_minutes (secs : List ℕ) (initial_time : ℕ) : List ℚ :=
  (cumulative_seconds secs initial_time).map (fun (n : ℕ) => (n : ℚ) / 60)

/-- `df["cumulative_hours"] = df["cumulative_minutes"] / 60` (main.py:126). -/
def cumulative_hours (secs : List ℕ) (initial_time : ℕ) : List ℚ :=
  (cumulative_minutes secs initial_time).map (fun q => q / 60)

/-! ## Streak columns (main.py:127-135) -/

/-- `df["streak"] = (df["seconds"] > 0).astype(int)` (main.py:127), per element. -/
def ind (v : ℕ) : ℕ := if 0 < v then 1 else 0

/-- The `streak` column of 0/1 values (main.py:127). -/
def streakCol (secs : List ℕ) : List ℕ := secs.map ind

/-- The next value of `df.groupby("streak_group")["streak"].cumsum()` given the
previous element of the `streak` column and the running in-group sum. -/
def nextAcc (prev : Option ℕ) (acc x : ℕ) : ℕ := if prev = some x then acc + x else x

/-- Embedding of `df["streak_group"] = (df["streak"] != df["streak"].shift()).cumsum()`
combined with `df["current_streak"] = df.groupby("streak_group")["streak"].cumsum()`
(main.py:130-131).  The `streak_group` label increments exactly when the streak
value changes, so the labels are non-decreasing and the per-group cumulative sum
is a running sum that restarts whenever the value differs from its predecessor. -/
def groupCumsumGo (prev : Option ℕ) (acc : ℕ) : List ℕ → List ℕ
  | [] => []
  | x :: xs => nextAcc prev acc x :: groupCumsumGo (some x) (nextAcc prev acc x) xs

/-- The `current_streak` column (main.py:131). -/
def current_streak_col (secs : List ℕ) : List ℕ := groupCumsumGo none 0 (streakCol secs)

/-- `current_streak = df["current_streak"].iloc[-1] if df["streak"].iloc[-1] == 1 else 0`
(main.py:132).  `iloc[-1]` on an empty frame raises `IndexError`, modelled as `none`. -/
def current_streak? (secs : List ℕ) : Option ℕ :=
  (streakCol secs).getLast?.bind (fun v =>
    if v = 1 then (current_streak_col secs).getLast? else some 0)

/-- Embedding of `streak_lengths = df[df["streak"] == 1].groupby("streak_group").size()`
(main.py:135): the sizes of the groups restricted to `streak == 1` rows are the
lengths of the maximal runs of 1s, collected left to right.  `cur` is the length
of the currently open run of 1s. -/
def runsGo (cur : ℕ) : List ℕ → List ℕ
  | [] => if cur = 0 then [] else [cur]
  | x :: xs => if x = 1 then runsGo (cur + 1) xs
               else if cur = 0 then runsGo 0 xs else cur :: runsGo 0 xs

/-- The `streak_lengths` series (main.py:135). -/
def streak_lengths (secs : List ℕ) : List ℕ := runsGo 0 (streakCol secs)

/-- `longest_streak = streak_lengths.max() if not streak_lengths.empty else 0`
(main.py:512). -/
def longest_streak (secs : List ℕ) : ℕ :=
  if streak_lengths secs = [] then 0 else (streak_lengths secs).foldr max 0

/-- `avg_streak = streak_lengths.mean() if not streak_lengths.empty else 0`
(main.py:535). -/
def average_streak (secs : List ℕ) : ℚ :=
  if streak_lengths secs = [] then 0
  else ((streak_lengths secs).sum : ℚ) / (streak_lengths secs).length

/-! ## Means, rolling averages and consistency (main.py:138-144, 515-516) -/

/-- `df["seconds"].mean()` (main.py:144).  pandas returns NaN on an empty
series; NaN is modelled as `none`. -/
def series_mean (l : List ℕ) : Option ℚ :=
  if l.isEmpty then none else some ((l.sum : ℚ) / l.length)

/-- The positional window of `Series.rolling(w, min_periods=1)` ending at row `i`:
the last at most `w` of the first `i + 1` entries. -/
def windowAt (w : ℕ) (s : List ℕ) (i : ℕ) : List ℕ :=
  (s.take (i + 1)).drop (i + 1 - w)

/-- `df["seconds"].rolling(w, min_periods=1).mean()` (main.py:138-139). -/
def rollingMean (w : ℕ) (s : List ℕ) : List ℚ :=
  (List.range s.length).map (fun i => ((windowAt w s i).sum : ℚ) / (windowAt w s i).length)

/-- `current_7day_avg = df["7day_avg"].iloc[-1]` (main.py:141); `iloc[-1]` on an
empty frame raises, modelled as `none`. -/
def current_7day_avg (secs : List ℕ) : Option ℚ := (rollingMean 7 secs).getLast?

/-- `consistency = (days_watched / len(df)) * 100` with
`days_watched = (df["seconds"] > 0).sum()` (main.py:515-516).  On an empty frame
the numpy division `0 / 0` produces NaN, modelled as `none`. -/
def consistency (secs : List ℕ) : Option ℚ :=
  if secs.isEmpty then none
  else some (((secs.countP (fun v => decide (0 < v)) : ℚ) / secs.length) * 100)

/-! ## Milestones and forecasts (constants.py, main.py:447-494,
expected_milestones.py:39-96) -/

/-- `MILESTONES = [50, 150, 300, 600, 1000, 1500]` (constants.py). -/
def MILESTONES : List ℕ := [50, 150, 300, 600, 1000, 1500]

/-- The milestones the loop renders as "Already achieved!": those with
`not (current_hours < milestone)` (main.py:448,489). -/
def achieved_milestones (current_hours : ℚ) : List ℕ :=
  MILESTONES.filter (fun m => decide (¬ current_hours < (m : ℚ)))

/-- The milestones the loop renders with a projection: those with
`current_hours < milestone` (main.py:448). -/
def projected_milestones (current_hours : ℚ) : List ℕ :=
  MILESTONES.filter (fun m => decide (current_hours < (m : ℚ)))

/-- Result values of numpy float64 arithmetic that can be infinite or NaN. -/
inductive PyFloat where
  | val : ℚ → PyFloat
  | inf : PyFloat
  | ninf : PyFloat
  | nan : PyFloat
deriving DecidableEq

/-- numpy float64 division: dividing by zero emits a warning and yields
`inf` / `-inf` / `nan` according to the numerator's sign, never an exception. -/
def npDiv (a b : ℚ) : PyFloat :=
  if b = 0 then (if 0 < a then .inf else if a < 0 then .ninf else .nan)
  else .val (a / b)

/-- `days_to_milestone = ((milestone - current_hours) * 3600) / avg_seconds_per_day`
(main.py:449-451, expected_milestones.py:41-43): the overall-average basis has no
zero guard and relies on numpy division semantics. -/
def days_to_milestone (milestone current_hours rate : ℚ) : PyFloat :=
  npDiv ((milestone - current_hours) * 3600) rate

/-- `((milestone - current_hours) * 3600) / current_7day_avg if current_7day_avg > 0
else float("inf")` (main.py:452-456, expected_milestones.py:44-48). -/
def days_to_milestone_7day (milestone current_hours rate : ℚ) : PyFloat :=
  if 0 < rate then .val ((milestone - current_hours) * 3600 / rate) else .inf

/-- `((milestone - current_hours) * 3600) / current_30day_avg if current_30day_avg > 0
else float("inf")` (main.py:457-461, expected_milestones.py:49-53). -/
def days_to_milestone_30day (milestone current_hours rate : ℚ) : PyFloat :=
  if 0 < rate then .val ((milestone - current_hours) * 3600 / rate) else .inf

/-! ## Dates, calendar months and ISO weeks -/

/-- A calendar date as used by the pipeline (no time component). -/
structure SDate where
  year : ℕ
  month : ℕ
  day : ℕ
deriving DecidableEq

/-- One row of the raw DataFrame: date, `seconds` and `goalReached`. -/
structure DailyRecord where
  date : SDate
  seconds : ℕ
  goalReached : Bool
deriving DecidableEq

/-- `df["month_year"] = df["date"].dt.to_period("M")` (additional_graphs.py:147):
a calendar month represented by its (year, month) pair. -/
def month_year (d : SDate) : ℕ × ℕ := (d.year, d.month)

/-- Gregorian leap-year rule (as used by `pandas.Period.days_in_month`). -/
def isLeap (y : ℕ) : Bool := y % 4 == 0 && (y % 100 != 0 || y % 400 == 0)

/-- `month_period.days_in_month` (additional_graphs.py:163): the number of
calendar days in a Gregorian month. -/
def daysInMonth (y m : ℕ) : ℕ :=
  if m = 2 then (if isLeap y then 29 else 28)
  else if m = 4 ∨ m = 6 ∨ m = 9 ∨ m = 11 then 30
  else 31

/-- Ascending chronological comparison of (year, month) pairs, the order
`sorted` uses on pandas `Period` values. -/
def monthLE (a b : ℕ × ℕ) : Bool :=
  decide (a.1 < b.1) || (decide (a.1 = b.1) && decide (a.2 ≤ b.2))

/-- Insertion step of the sort embedding Python's `sorted`. -/
def insertAsc (m : ℕ × ℕ) : List (ℕ × ℕ) → List (ℕ × ℕ)
  | [] => [m]
  | x :: xs => if monthLE m x then m :: x :: xs else x :: insertAsc m xs

/-- Embedding of Python's `sorted` (ascending) on month keys. -/
def sortMonths : List (ℕ × ℕ) → List (ℕ × ℕ)
  | [] => []
  | x :: xs => insertAsc x (sortMonths xs)

/-- `last_12_months = sorted(df["month_year"].unique(), reverse=True)[:12][::-1]`
(additional_graphs.py:149): the last at most 12 distinct months present in the
data, in ascending order (descending sort, first 12, reversed). -/
def last_12_months (recs : List DailyRecord) : List (ℕ × ℕ) :=
  let ms := sortMonths ((recs.map (fun r => month_year r.date)).dedup)
  ms.drop (ms.length - 12)

/-- One row of `monthly_data` (additional_graphs.py:165-172). -/
structure MonthEntry where
  month : ℕ × ℕ
  days_practiced : ℕ
  days_target_met : ℕ
  days_in_month : ℕ
deriving DecidableEq

/-- The body of the month loop (additional_graphs.py:154-172):
`month_df = df[df["month_year"] == month_period]`,
`days_practiced = month_df[month_df["seconds"] > 0]["date"].nunique()`,
`days_target_met = month_df["goalReached"].sum()`, and `days_in_month` is the
number of distinct dates present when the month is the current one, otherwise
the calendar length of the month. -/
def monthEntry (recs : List DailyRecord) (today : SDate) (m : ℕ × ℕ) : MonthEntry :=
  let month_df := recs.filter (fun r => decide (month_year r.date = m))
  ⟨m,
   ((month_df.filter (fun r => decide (0 < r.seconds))).map (fun r => r.date)).dedup.length,
   month_df.countP (fun r => r.goalReached),
   if m.1 = today.year ∧ m.2 = today.month
     then ((month_df.map (fun r => r.date)).dedup.length)
     else daysInMonth m.1 m.2⟩

/-- `monthly_data` (additional_graphs.py:151-172), with the impure
`datetime.now` passed in as the `today` parameter. -/
def monthly_data (recs : List DailyRecord) (today : SDate) : List MonthEntry :=
  (last_12_months recs).map (monthEntry recs today)

/-- Ordinal of a date within its year (1-based). -/
def dayOfYear (y m d : ℕ) : ℕ :=
  d + ((List.range (m - 1)).map (fun k => daysInMonth y (k + 1))).sum

/-- Days in all Gregorian years strictly before year `y`. -/
def daysBeforeYear (y : ℕ) : ℕ :=
  365 * (y - 1) + (y - 1) / 4 - (y - 1) / 100 + (y - 1) / 400

/-- Rata die day number: 0001-01-01 is day 1 of the proleptic Gregorian calendar. -/
def rataDie (y m d : ℕ) : ℕ := daysBeforeYear y + dayOfYear y m d

/-- ISO weekday, Monday = 1 .. Sunday = 7; 0001-01-01 was a Monday. -/
def isoWeekday (y m d : ℕ) : ℕ := (rataDie y m d - 1) % 7 + 1

/-- A year has 53 ISO weeks iff it starts on a Thursday, or starts on a
Wednesday and is leap. -/
def isoLongYear (y : ℕ) : Bool :=
  isoWeekday y 1 1 == 4 || (isLeap y && isoWeekday y 1 1 == 3)

/-- Number of ISO weeks in a year (52 or 53). -/
def isoWeeksInYear (y : ℕ) : ℕ := if isoLongYear y then 53 else 52

/-- ISO 8601 week number, the value of `Series.dt.isocalendar().week`
(additional_graphs.py:237,241). -/
def isoWeek (y m d : ℕ) : ℕ :=
  let w0 := (dayOfYear y m d + 10 - isoWeekday y m d) / 7
  if w0 = 0 then isoWeeksInYear (y - 1)
  else if w0 = 53 ∧ ¬ isoLongYear y then 1
  else w0

/-- The week-number adjustment of the yearly heatmap (additional_graphs.py:241-246,
main.py:342-347): December days in ISO week ≤ 1 gain 52; January days in ISO
week ≥ 52 lose 52.  Result in `ℤ` since the claim speaks of weeks ≤ 0. -/
def adjusted_week (y m d : ℕ) : ℤ :=
  if m = 12 ∧ isoWeek y m d ≤ 1 then (isoWeek y m d : ℤ) + 52
  else if m = 1 ∧ 52 ≤ isoWeek y m d then (isoWeek y m d : ℤ) - 52
  else (isoWeek y m d : ℤ)

/-! ## Daily goal progress (progress_bar.py:22-45) -/

/-- `seconds_watched_today = today_df["seconds"].sum()` over the rows whose date
equals today (progress_bar.py:231-233 in-source lines 31-33). -/
def seconds_watched_today (recs : List DailyRecord) (today : SDate) : ℕ :=
  ((recs.filter (fun r => decide (r.date = today))).map (fun r => r.seconds)).sum

/-- `progress_val = seconds_watched_today / user_info.daily_goal_seconds`
(progress_bar.py:35). -/
def progress_val (recs : List DailyRecord) (today : SDate) (daily_goal_seconds : ℕ) : ℚ :=
  (seconds_watched_today recs today : ℚ) / daily_goal_seconds

/-- The value handed to `st.progress`: `min(progress_val, 1.0)` (progress_bar.py:42-43). -/
def progress_shown (recs : List DailyRecord) (today : SDate) (daily_goal_seconds : ℕ) : ℚ :=
  min (progress_val recs today daily_goal_seconds) 1

/-- The percentage reported in the status text: `progress_val * 100`
(progress_bar.py:39), uncapped. -/
def status_percent (recs : List DailyRecord) (today : SDate) (daily_goal_seconds : ℕ) : ℚ :=
  progress_val recs today daily_goal_seconds * 100

/-! ## Averaged insights (averaged_insights.py:33-67) -/

/-- `last_7_total = df.tail(7)["seconds"].sum()` (averaged_insights.py:280 in-source
line 33): the sum of the last at most 7 entries. -/
def last_7_total (s : List ℕ) : ℕ := (s.drop (s.length - 7)).sum

/-- `previous_7_total = df.iloc[-14:-7]["seconds"].sum() if len(df) >= 14 else 0`
(averaged_insights.py:34-36). -/
def previous_7_total (s : List ℕ) : ℕ :=
  if 14 ≤ s.length then ((s.drop (s.length - 14)).take 7).sum else 0

/-- `week_change = last_7_total - previous_7_total` (averaged_insights.py:37). -/
def week_change (s : List ℕ) : ℤ := (last_7_total s : ℤ) - previous_7_total s

/-- `last_30_total = df.tail(30)["seconds"].sum()` (averaged_insights.py:57). -/
def last_30_total (s : List ℕ) : ℕ := (s.drop (s.length - 30)).sum

/-- `previous_30_total = df.iloc[-60:-30]["seconds"].sum() if len(df) >= 60 else 0`
(averaged_insights.py:58-60). -/
def previous_30_total (s : List ℕ) : ℕ :=
  if 60 ≤ s.length then ((s.drop (s.length - 60)).take 30).sum else 0

/-- `month_change = last_30_total - previous_30_total` (averaged_insights.py:61). -/
def month_change (s : List ℕ) : ℤ := (last_30_total s : ℤ) - previous_30_total s

/-! ## Spec-side definitions, written from the specification's words, used to
state refinement claims against the source-derived definitions above. -/

/-- Modelled from the spec: "length of the maximal run of consecutive days with
seconds_watched > 0 ending at the last day". -/
def trailing_active_run (secs : List ℕ) : ℕ :=
  (secs.reverse.takeWhile (fun v => decide (0 < v))).length

/-- Modelled from the spec: "the trailing min(w, i+1) days ending at index i"
taken literally as the last `w` of the first `i + 1` entries. -/
def trailingWindow (w : ℕ) (s : List ℕ) (i : ℕ) : List ℕ :=
  ((s.take (i + 1)).reverse.take w).reverse

/-- Support definition for the append lemma on `groupCumsumGo`: the `prev`
state after consuming `ys`. -/
def lastPrev (prev : Option ℕ) : List ℕ → Option ℕ
  | [] => prev
  | y :: ys => lastPrev (some y) ys

/-- Support definition for the append lemma on `groupCumsumGo`: the `acc`
state after consuming `ys`. -/
def lastAcc (prev : Option ℕ) (acc : ℕ) (ys : List ℕ) : ℕ :=
  (groupCumsumGo prev acc ys).getLastD acc

/-! ## Theorems -/

/-- C10: with fewer than 14 records the previous-7-days total is 0 and the
week-over-week change equals the last-7-days total; with fewer than 60 records
the previous-30-days total is 0 and the 30-day change equals the last-30-days
total. -/
theorem short_history_deltas (s : List ℕ) :
    (s.length < 14 → previous_7_total s = 0 ∧ week_change s = (last_7_total s : ℤ)) ∧
    (s.length < 60 → previous_30_total s = 0 ∧ month_change s = (last_30_total s : ℤ)) := by
  constructor
  · intro h
    have h7 : previous_7_total s = 0 := by
      unfold previous_7_total
      rw [if_neg (by omega)]
    exact ⟨h7, by simp [week_change, h7]⟩
  · intro h
    have h30 : previous_30_total s = 0 := by
      unfold previous_30_total
      rw [if_neg (by omega)]
    exact ⟨h30, by simp [month_change, h30]⟩

/-- Witness for C10 at the concrete one-element series `[5]`. -/
theorem short_history_deltas_witness :
    previous_7_total [5] = 0 ∧ week_change [5] = (last_7_total [5] : ℤ) :=
  (short_history_deltas [5]).1 (by decide)

/-- C9: for a positive daily goal, the value handed to the progress renderer is
`min(progress_val, 1)`, hence never exceeds 1 even when today's watched time
exceeds the goal, while the status text's percentage is the uncapped
`progress_val * 100`. -/
theorem progress_bar_spec (recs : List DailyRecord) (today : SDate)
    (daily_goal_seconds : ℕ) (_hg : 0 < daily_goal_seconds) :
    progress_shown recs today daily_goal_seconds
        = min (progress_val recs today daily_goal_seconds) 1 ∧
    progress_shown recs today daily_goal_seconds ≤ 1 ∧
    (1 < progress_val recs today daily_goal_seconds →
      progress_shown recs today daily_goal_seconds = 1 ∧
      100 < status_percent recs today daily_goal_seconds) ∧
    status_percent recs today daily_goal_seconds
        = progress_val recs today daily_goal_seconds * 100 := by
  refine ⟨rfl, min_le_right _ _, ?_, rfl⟩
  intro hv
  refine ⟨min_eq_right hv.le, ?_⟩
  unfold status_percent
  nlinarith [hv]

/-- Witness for C9: today's 200 seconds against a 100-second goal give an
uncapped 200% status but a capped progress value of 1. -/
theorem progress_bar_witness :
    progress_shown [⟨⟨2025, 1, 1⟩, 200, false⟩] ⟨2025, 1, 1⟩ 100 = 1 ∧
    100 < status_percent [⟨⟨2025, 1, 1⟩, 200, false⟩] ⟨2025, 1, 1⟩ 100 :=
  (progress_bar_spec [⟨⟨2025, 1, 1⟩, 200, false⟩] ⟨2025, 1, 1⟩ 100 (by decide)).2.2.1
    (by norm_num [progress_val, seconds_watched_today])

/-- C5: each milestone of the fixed set is marked achieved iff
`current_hours ≥ milestone`; the achieved and projected milestones are disjoint
and their union is the full milestone set. -/
theorem milestone_partition (current_hours : ℚ) :
    (∀ m ∈ MILESTONES, m ∈ achieved_milestones current_hours ↔ (m : ℚ) ≤ current_hours) ∧
    (∀ m, ¬ (m ∈ achieved_milestones current_hours ∧ m ∈ projected_milestones current_hours)) ∧
    (∀ m, m ∈ MILESTONES ↔
      (m ∈ achieved_milestones current_hours ∨ m ∈ projected_milestones current_hours)) := by
  refine ⟨?_, ?_, ?_⟩
  · intro m hm
    simp [achieved_milestones, hm, not_lt]
  · intro m ⟨ha, hp⟩
    simp [achieved_milestones, List.mem_filter] at ha
    simp [projected_milestones, List.mem_filter] at hp
    exact absurd hp.2 (not_lt.mpr ha.2)
  · intro m
    constructor
    · intro hm
      by_cases h : current_hours < (m : ℚ)
      · exact Or.inr (by simp [projected_milestones, List.mem_filter, hm, h])
      · exact Or.inl (by simp [achieved_milestones, List.mem_filter, hm, not_lt.mp h])
    · rintro (h | h)
      · exact (List.mem_filter.mp h).1
      · exact (List.mem_filter.mp h).1

/-- Witness for C5 at `current_hours = 100`: the 50-hour milestone is achieved. -/
theorem milestone_partition_witness : 50 ∈ achieved_milestones 100 :=
  ((milestone_partition 100).1 50 (by decide)).mpr (by norm_num)

/-- C3: for every milestone above the current hours and every non-negative rate
(all three rate bases are means of non-negative seconds, hence non-negative),
each days-to-milestone expression yields `(milestone - current_hours) * 3600 / rate`
when the rate is positive and positive infinity — not a fault — when the rate is
zero: the 7-day and 30-day bases by their explicit guard, the overall-average
basis by numpy float division semantics. -/
theorem days_to_milestone_spec (milestone current_hours rate : ℚ)
    (hm : current_hours < milestone) (hr : 0 ≤ rate) :
    days_to_milestone milestone current_hours rate
        = (if 0 < rate then PyFloat.val ((milestone - current_hours) * 3600 / rate)
            else PyFloat.inf) ∧
    days_to_milestone_7day milestone current_hours rate
        = (if 0 < rate then PyFloat.val ((milestone - current_hours) * 3600 / rate)
            else PyFloat.inf) ∧
    days_to_milestone_30day milestone current_hours rate
        = (if 0 < rate then PyFloat.val ((milestone - current_hours) * 3600 / rate)
            else PyFloat.inf) := by
  have hnum : 0 < (milestone - current_hours) * 3600 := by
    have : 0 < milestone - current_hours := sub_pos.mpr hm
    positivity
  rcases hr.lt_or_eq with hpos | hzero
  · rw [if_pos hpos]
    refine ⟨?_, if_pos hpos, if_pos hpos⟩
    unfold days_to_milestone npDiv
    rw [if_neg (ne_of_gt hpos)]
  · rw [if_neg (by rw [← hzero]; exact lt_irrefl 0)]
    refine ⟨?_, ?_, ?_⟩
    · unfold days_to_milestone npDiv
      rw [if_pos hzero.symm, if_pos hnum]
    · unfold days_to_milestone_7day
      rw [if_neg (by rw [← hzero]; exact lt_irrefl 0)]
    · unfold days_to_milestone_30day
      rw [if_neg (by rw [← hzero]; exact lt_irrefl 0)]

/-- The running sum preserves list length. -/
theorem cumsumFrom_length (acc : ℕ) (l : List ℕ) : (cumsumFrom acc l).length = l.length := by
  induction l generalizing acc with
  | nil => rfl
  | cons x xs ih => simp [cumsumFrom, ih]

/-- Index formula for the running sum. -/
theorem cumsumFrom_getD (l : List ℕ) (acc i : ℕ) (h : i < l.length) :
    (cumsumFrom acc l).getD i 0 = acc + (l.take (i + 1)).sum := by
  induction l generalizing acc i with
  | nil => simp at h
  | cons x xs ih =>
    cases i with
    | zero => simp [cumsumFrom]
    | succ i =>
      have hi : i < xs.length := by simpa using h
      simp only [cumsumFrom, List.getD_cons_succ, ih (acc + x) i hi, List.take_succ_cons,
        List.sum_cons]
      omega

/-- The derived cumulative column has one entry per record. -/
theorem cumulative_seconds_length (secs : List ℕ) (initial_time : ℕ) :
    (cumulative_seconds secs initial_time).length = secs.length := by
  simp [cumulative_seconds, cumsumFrom_length]

/-- Index formula for `cumulative_seconds`. -/
theorem cumulative_seconds_getD (secs : List ℕ) (initial_time i : ℕ) (h : i < secs.length) :
    (cumulative_seconds secs initial_time).getD i 0
      = initial_time + (secs.take (i + 1)).sum := by
  have hl : i < (cumsumFrom 0 secs).length := by rw [cumsumFrom_length]; exact h
  have hm : i < ((cumsumFrom 0 secs).map (fun n => n + initial_time)).length := by
    simpa [cumsumFrom_length] using h
  unfold cumulative_seconds
  rw [List.getD_eq_getElem _ _ hm, List.getElem_map, ← List.getD_eq_getElem _ 0 hl,
    cumsumFrom_getD secs 0 i h]
  omega

/-- Prefix sums of a list of naturals are monotone. -/
theorem sum_take_mono (l : List ℕ) {i j : ℕ} (h : i ≤ j) :
    (l.take i).sum ≤ (l.take j).sum := by
  have hsplit : l.take j = l.take i ++ (l.drop i).take (j - i) := by
    rw [← List.take_add]
    congr 1
    omega
  rw [hsplit, List.sum_append]
  omega

/-- C1: for every non-empty series of non-negative per-day seconds and
non-negative initial time, `cumulative_seconds[i] = initial_time +
sum(seconds[0..i])`, the column is non-decreasing, its last element is
`initial_time` plus the total of all seconds, and
`cumulative_hours[i] = cumulative_seconds[i] / 3600` (non-negativity is
encoded by the `ℕ` value types). -/
theorem cumulative_spec (secs : List ℕ) (initial_time : ℕ) (hne : secs ≠ []) :
    (∀ i, i < secs.length →
      (cumulative_seconds secs initial_time).getD i 0
        = initial_time + (secs.take (i + 1)).sum) ∧
    (∀ i j, i ≤ j → j < secs.length →
      (cumulative_seconds secs initial_time).getD i 0
        ≤ (cumulative_seconds secs initial_time).getD j 0) ∧
    (cumulative_seconds secs initial_time).getLastD 0 = initial_time + secs.sum ∧
    (∀ i, i < secs.length →
      (cumulative_hours secs initial_time).getD i 0
        = ((cumulative_seconds secs initial_time).getD i 0 : ℚ) / 3600) := by
  refine ⟨fun i hi => cumulative_seconds_getD secs initial_time i hi, ?_, ?_, ?_⟩
  · intro i j hij hj
    rw [cumulative_seconds_getD secs initial_time i (lt_of_le_of_lt hij hj),
      cumulative_seconds_getD secs initial_time j hj]
    have := sum_take_mono secs (Nat.add_le_add_right hij 1)
    omega
  · have hlen : 0 < secs.length := List.length_pos.mpr hne
    have hlen2 : (cumulative_seconds secs initial_time) ≠ [] := by
      intro hc
      have := cumulative_seconds_length secs initial_time
      rw [hc] at this
      simp at this
      omega
    have hlast : secs.length - 1 < secs.length := by omega
    rw [List.getLastD_eq_getLast?, List.getLast?_eq_getElem?]
    rw [cumulative_seconds_length secs initial_time]
    have hidx : secs.length - 1 < (cumulative_seconds secs initial_time).length := by
      rw [cumulative_seconds_length]; exact hlast
    rw [List.getElem?_eq_getElem hidx]
    simp only [Option.getD_some]
    rw [← List.getD_eq_getElem _ 0 hidx, cumulative_seconds_getD secs initial_time _ hlast]
    congr 1
    have : secs.length - 1 + 1 = secs.length := by omega
    rw [this, List.take_length]
  · intro i hi
    have h60 : i < (cumulative_seconds secs initial_time).length := by
      rw [cumulative_seconds_length]; exact hi
    have h61 : i < ((cumulative_seconds secs initial_time).map
        (fun (n : ℕ) => (n : ℚ) / 60)).length := by
      rw [List.length_map]; exact h60
    have h62 : i < (((cumulative_seconds secs initial_time).map
        (fun (n : ℕ) => (n : ℚ) / 60)).map (fun (q : ℚ) => q / 60)).length := by
      rw [List.length_map]; exact h61
    unfold cumulative_hours cumulative_minutes
    rw [List.getD_eq_getElem _ _ h62, List.getElem_map, List.getElem_map,
      ← List.getD_eq_getElem _ 0 h60, div_div]
    norm_num

/-- Witness for C1 on the concrete series `[3600, 0, 1800]` with initial time
100: last cumulative value and the hours conversion at index 0. -/
theorem cumulative_witness :
    (cumulative_seconds [3600, 0, 1800] 100).getLastD 0 = 100 + [3600, 0, 1800].sum ∧
    (cumulative_hours [3600, 0, 1800] 100).getD 0 0
      = ((cumulative_seconds [3600, 0, 1800] 100).getD 0 0 : ℚ) / 3600 :=
  ⟨(cumulative_spec [3600, 0, 1800] 100 (by decide)).2.2.1,
   (cumulative_spec [3600, 0, 1800] 100 (by decide)).2.2.2 0 (by decide)⟩

/-- The spec's trailing-window formulation agrees with the positional pandas
window for every in-range index. -/
theorem trailingWindow_eq (w : ℕ) (s : List ℕ) (i : ℕ) (h : i < s.length) :
    trailingWindow w s i = windowAt w s i := by
  unfold trailingWindow windowAt
  rw [List.take_reverse, List.reverse_reverse, List.length_take]
  congr 1
  omega

/-- Index formula for the rolling mean column. -/
theorem rollingMean_getD (w : ℕ) (s : List ℕ) (i : ℕ) (h : i < s.length) :
    (rollingMean w s).getD i 0 = ((windowAt w s i).sum : ℚ) / (windowAt w s i).length := by
  unfold rollingMean
  have hl : i < ((List.range s.length).map
      (fun i => ((windowAt w s i).sum : ℚ) / (windowAt w s i).length)).length := by
    simpa using h
  rw [List.getD_eq_getElem _ _ hl, List.getElem_map, List.getElem_range]

/-- The rolling window ending at an in-range index holds `min w (i + 1)` entries. -/
theorem windowAt_length (w : ℕ) (s : List ℕ) (i : ℕ) (h : i < s.length) :
    (windowAt w s i).length = min w (i + 1) := by
  unfold windowAt
  rw [List.length_drop, List.length_take]
  omega

/-- The rolling window only contains entries of the series. -/
theorem windowAt_sublist (w : ℕ) (s : List ℕ) (i : ℕ) : (windowAt w s i).Sublist s :=
  (List.drop_sublist _ _).trans (List.take_sublist _ _)

/-- C6: for each window size in {7, 30}, the rolling average at index `i` is the
mean of the trailing `min(w, i+1)` entries (spec-side window formulation), the
window never reaches outside the series, and the 7-day average at index 0 is
exactly `seconds_watched[0]`. -/
theorem rolling_avg_spec (s : List ℕ) (i : ℕ) (hi : i < s.length) :
    ((rollingMean 7 s).getD i 0
        = ((trailingWindow 7 s i).sum : ℚ) / (trailingWindow 7 s i).length ∧
      (trailingWindow 7 s i).length = min 7 (i + 1) ∧
      (windowAt 7 s i).Sublist s) ∧
    ((rollingMean 30 s).getD i 0
        = ((trailingWindow 30 s i).sum : ℚ) / (trailingWindow 30 s i).length ∧
      (trailingWindow 30 s i).length = min 30 (i + 1) ∧
      (windowAt 30 s i).Sublist s) ∧
    (rollingMean 7 s).getD 0 0 = (s.getD 0 0 : ℚ) := by
  have h0 : 0 < s.length := lt_of_le_of_lt (Nat.zero_le i) hi
  refine ⟨⟨?_, ?_, windowAt_sublist 7 s i⟩, ⟨?_, ?_, windowAt_sublist 30 s i⟩, ?_⟩
  · rw [rollingMean_getD 7 s i hi, trailingWindow_eq 7 s i hi]
  · rw [trailingWindow_eq 7 s i hi]
    exact windowAt_length 7 s i hi
  · rw [rollingMean_getD 30 s i hi, trailingWindow_eq 30 s i hi]
  · rw [trailingWindow_eq 30 s i hi]
    exact windowAt_length 30 s i hi
  · rw [rollingMean_getD 7 s 0 h0]
    obtain ⟨a, t, rfl⟩ := List.exists_cons_of_ne_nil (List.ne_nil_of_length_pos h0)
    simp [windowAt]

/-- Witness for C6 on the series `[60, 120]` at index 1. -/
theorem rolling_avg_witness :
    (rollingMean 7 [60, 120]).getD 1 0
      = ((trailingWindow 7 [60, 120] 1).sum : ℚ) / (trailingWindow 7 [60, 120] 1).length ∧
    (rollingMean 7 [60, 120]).getD 0 0 = (([60, 120].getD 0 0 : ℕ) : ℚ) :=
  ⟨((rolling_avg_spec [60, 120] 1 (by decide)).1).1,
   (rolling_avg_spec [60, 120] 1 (by decide)).2.2⟩

/-- Every ISO week number is at least 1. -/
theorem isoWeek_pos (y m d : ℕ) : 1 ≤ isoWeek y m d := by
  simp only [isoWeek, isoWeeksInYear]
  split
  · split <;> omega
  · split <;> omega

/-- C8 counterexample: 2021-01-01 is a January day of ISO week 53 (of ISO year
2020), yet its adjusted week is 53 - 52 = 1, not "week 0 or below" — and it
collides with the genuine week-1 January days of 2021. -/
theorem heatmap_week_counterexample :
    isoWeek 2021 1 1 = 53 ∧ ¬ (adjusted_week 2021 1 1 ≤ 0) ∧
    adjusted_week 2021 1 1 = 1 ∧ adjusted_week 2021 1 4 = 1 := by
  exact ⟨by decide, by decide, by decide, by decide⟩

/-- C8 (amended): December days whose ISO week is 1 are pushed to week 53 or
above, as claimed; January days whose ISO week is 52 or above are reduced by
exactly 52, which yields week 0 for ISO week 52 but week 1 — not a week ≤ 0 —
for ISO week 53, so the week axis is contiguous only in years whose January
contains no ISO-week-53 day. -/
theorem heatmap_week_adjustment (y m d : ℕ) :
    (m = 12 ∧ isoWeek y m d ≤ 1 →
      adjusted_week y m d = (isoWeek y m d : ℤ) + 52 ∧ 53 ≤ adjusted_week y m d) ∧
    (m = 1 ∧ 52 ≤ isoWeek y m d →
      adjusted_week y m d = (isoWeek y m d : ℤ) - 52) := by
  have hpos := isoWeek_pos y m d
  constructor
  · rintro ⟨hm, hw⟩
    unfold adjusted_week
    rw [if_pos ⟨hm, hw⟩]
    refine ⟨rfl, ?_⟩
    have h1 : isoWeek y m d = 1 := le_antisymm hw hpos
    rw [h1]
    decide
  · rintro ⟨hm, hw⟩
    unfold adjusted_week
    rw [if_neg (by rintro ⟨h12, h2⟩; omega), if_pos ⟨hm, hw⟩]

/-- Witness for C8 (amended): 2019-12-30 has ISO week 1 and adjusted week 53;
2022-01-01 has ISO week 52 and adjusted week 0. -/
theorem heatmap_week_adjustment_witness :
    adjusted_week 2019 12 30 = (isoWeek 2019 12 30 : ℤ) + 52 ∧
    adjusted_week 2022 1 1 = (isoWeek 2022 1 1 : ℤ) - 52 :=
  ⟨((heatmap_week_adjustment 2019 12 30).1 ⟨rfl, by decide⟩).1,
   (heatmap_week_adjustment 2022 1 1).2 ⟨rfl, by decide⟩⟩

/-- C2 counterexample: on the empty series the pipeline does not degrade to
zeros — `current_streak` reads the last row of an empty frame (an
`IndexError`, modelled as `none`), and the overall average, the consistency
percentage and the latest 7-day rolling average are NaN or faulting
(modelled as `none`), contradicting "all stats return 0, no exception". -/
theorem empty_series_counterexample :
    current_streak? [] = none ∧ series_mean [] = none ∧
    consistency [] = none ∧ current_7day_avg [] = none := by
  decide

/-- C2 (amended): on the empty series the statistics guarded by explicit
emptiness checks (longest streak, average streak) do yield 0 and the rolling
columns are empty, but the current-streak extraction faults on the last-row
access and the overall average and consistency are undefined (NaN), so not
every aggregate degrades to a defined zero result. -/
theorem empty_series_behavior :
    longest_streak [] = 0 ∧ average_streak [] = 0 ∧ streak_lengths [] = [] ∧
    rollingMean 7 [] = [] ∧ rollingMean 30 [] = [] ∧
    current_streak? [] = none ∧ series_mean [] = none ∧ consistency [] = none := by
  refine ⟨by decide, ?_, by decide, by decide, by decide, by decide, by decide, by decide⟩
  simp [average_streak, streak_lengths, runsGo, streakCol]

/-- Witness for C3 at the spec's own scenario: 45 current hours, 50-hour
milestone, 3600 seconds/day gives exactly 5 days on every basis; a zero rate
gives infinity on every basis. -/
theorem days_to_milestone_witness :
    days_to_milestone 50 45 3600 = PyFloat.val 5 ∧
    days_to_milestone_7day 50 45 3600 = PyFloat.val 5 ∧
    days_to_milestone 50 45 0 = PyFloat.inf ∧
    days_to_milestone_7day 50 45 0 = PyFloat.inf := by
  have h1 := days_to_milestone_spec 50 45 3600 (by norm_num) (by norm_num)
  have h2 := days_to_milestone_spec 50 45 0 (by norm_num) le_rfl
  norm_num at h1 h2
  exact ⟨h1.1, h1.2.1, h2.1, h2.2.1⟩

/-- C7: every entry of the monthly breakdown uses the full calendar length of
its month except for the current in-progress month, whose period length is the
number of distinct dates present in the series for it; `days_practiced` counts
distinct dates with positive seconds and `days_target_met` counts records with
the goal reached. -/
theorem monthly_breakdown_spec (recs : List DailyRecord) (today : SDate) (e : MonthEntry)
    (he : e ∈ monthly_data recs today) :
    e.days_in_month = (if e.month.1 = today.year ∧ e.month.2 = today.month
      then ((recs.filter (fun r => decide (month_year r.date = e.month))).map
          (fun r => r.date)).toFinset.card
      else daysInMonth e.month.1 e.month.2) ∧
    e.days_practiced = ((recs.filter
        (fun r => decide (month_year r.date = e.month ∧ 0 < r.seconds))).map
        (fun r => r.date)).toFinset.card ∧
    e.days_target_met = ((recs.filter
        (fun r => decide (month_year r.date = e.month))).filter
        (fun r => r.goalReached)).length := by
  obtain ⟨m, hm, rfl⟩ := List.mem_map.mp he
  have hfilters : recs.filter
        (fun r => decide (0 < r.seconds) && decide (month_year r.date = m))
      = recs.filter (fun r => decide (month_year r.date = m ∧ 0 < r.seconds)) := by
    apply List.filter_congr
    intro r _
    by_cases h1 : month_year r.date = m <;> by_cases h2 : 0 < r.seconds <;>
      simp [h1, h2]
  refine ⟨?_, ?_, ?_⟩
  · simp only [monthEntry, List.card_toFinset]
  · simp only [monthEntry, List.card_toFinset, List.filter_filter, hfilters]
  · simp only [monthEntry, List.countP_eq_length_filter]

/-- Witness for C7 on a one-record series whose month is the current month. -/
theorem monthly_breakdown_witness :
    (monthEntry [⟨⟨2025, 1, 5⟩, 100, true⟩] ⟨2025, 1, 10⟩ (2025, 1)).days_in_month = 1 := by
  have h := (monthly_breakdown_spec [⟨⟨2025, 1, 5⟩, 100, true⟩] ⟨2025, 1, 10⟩
    (monthEntry [⟨⟨2025, 1, 5⟩, 100, true⟩] ⟨2025, 1, 10⟩ (2025, 1)) (by decide)).1
  rw [h]
  decide

/-- The grouped cumulative sum preserves length. -/
theorem groupCumsumGo_length (prev : Option ℕ) (acc : ℕ) (l : List ℕ) :
    (groupCumsumGo prev acc l).length = l.length := by
  induction l generalizing prev acc with
  | nil => rfl
  | cons x xs ih => simp [groupCumsumGo, ih]

/-- Last element of a list with one element appended. -/
theorem getLastD_append_singleton {α : Type} (l : List α) (a d : α) :
    (l ++ [a]).getLastD d = a := by
  rw [List.getLastD_eq_getLast?, List.getLast?_concat]
  rfl

/-- Unfolding `lastAcc` over a cons cell. -/
theorem lastAcc_cons (prev : Option ℕ) (acc y : ℕ) (ys : List ℕ) :
    lastAcc prev acc (y :: ys) = lastAcc (some y) (nextAcc prev acc y) ys := by
  unfold lastAcc
  rw [show groupCumsumGo prev acc (y :: ys)
      = nextAcc prev acc y :: groupCumsumGo (some y) (nextAcc prev acc y) ys from rfl,
    List.getLastD_cons]

/-- Appending one element to the input of the grouped cumulative sum appends
one output value computed from the final machine state. -/
theorem groupCumsumGo_append (prev : Option ℕ) (acc : ℕ) (ys : List ℕ) (x : ℕ) :
    groupCumsumGo prev acc (ys ++ [x])
      = groupCumsumGo prev acc ys
          ++ [nextAcc (lastPrev prev ys) (lastAcc prev acc ys) x] := by
  induction ys generalizing prev acc with
  | nil => simp [groupCumsumGo, lastPrev, lastAcc]
  | cons y t ih =>
    rw [List.cons_append,
      show groupCumsumGo prev acc (y :: (t ++ [x]))
        = nextAcc prev acc y :: groupCumsumGo (some y) (nextAcc prev acc y) (t ++ [x])
        from rfl,
      show groupCumsumGo prev acc (y :: t)
        = nextAcc prev acc y :: groupCumsumGo (some y) (nextAcc prev acc y) t from rfl,
      ih (some y) (nextAcc prev acc y),
      show lastPrev prev (y :: t) = lastPrev (some y) t from rfl,
      lastAcc_cons]
    rfl

/-- `lastPrev` on a non-empty list is the last element of the list. -/
theorem lastPrev_ne_nil (prev : Option ℕ) (ys : List ℕ) (h : ys ≠ []) :
    lastPrev prev ys = ys.getLast? := by
  induction ys generalizing prev with
  | nil => exact absurd rfl h
  | cons y t ih =>
    cases t with
    | nil => simp [lastPrev]
    | cons z u =>
      rw [show lastPrev prev (y :: z :: u) = lastPrev (some y) (z :: u) from rfl,
        ih (some y) (by simp), List.getLast?_cons_cons]

/-- The last entry of the `current_streak` column over a 0/1 column is the
length of the trailing run of 1s when the column ends in 1, and 0 otherwise. -/
theorem current_col_getLastD (s : List ℕ) (hb : ∀ v ∈ s, v = 0 ∨ v = 1) :
    (groupCumsumGo none 0 s).getLastD 0
      = if s.getLastD 0 = 1
          then (s.reverse.takeWhile (fun v => v == 1)).length else 0 := by
  induction s using List.reverseRecOn with
  | nil => simp [groupCumsumGo]
  | append_singleton ys x ih =>
    have hb2 : ∀ v ∈ ys, v = 0 ∨ v = 1 := fun v hv => hb v (by simp [hv])
    have hx : x = 0 ∨ x = 1 := hb x (by simp)
    have hrev : (ys ++ [x]).reverse = x :: ys.reverse := by
      rw [List.reverse_append]; rfl
    rw [groupCumsumGo_append, getLastD_append_singleton, getLastD_append_singleton, hrev]
    rcases hx with rfl | rfl
    · rw [if_neg (by omega)]
      by_cases hp : lastPrev none ys = some 0
      · have hysne : ys ≠ [] := by
          intro hnil
          rw [hnil] at hp
          exact Option.noConfusion hp
        have hlast : ys.getLast? = some 0 := by
          rw [← lastPrev_ne_nil none ys hysne]; exact hp
        have hlastD : ys.getLastD 0 = 0 := by
          rw [List.getLastD_eq_getLast?, hlast]; rfl
        have hih := ih hb2
        rw [hlastD, if_neg (by omega)] at hih
        simp only [nextAcc, if_pos hp]
        unfold lastAcc
        omega
      · simp [nextAcc, hp]
    · rw [if_pos rfl, List.takeWhile_cons]
      norm_num
      by_cases hp : lastPrev none ys = some 1
      · have hysne : ys ≠ [] := by
          intro hnil
          rw [hnil] at hp
          exact Option.noConfusion hp
        have hlast : ys.getLast? = some 1 := by
          rw [← lastPrev_ne_nil none ys hysne]; exact hp
        have hlastD : ys.getLastD 0 = 1 := by
          rw [List.getLastD_eq_getLast?, hlast]; rfl
        have hih := ih hb2
        rw [hlastD, if_pos rfl] at hih
        simp only [nextAcc, if_pos hp]
        unfold lastAcc
        omega
      · simp only [nextAcc, if_neg hp]
        cases hysrev : ys.reverse with
        | nil => simp
        | cons z rest =>
          have hzys : z ∈ ys := by
            rw [← List.mem_reverse, hysrev]
            exact List.mem_cons_self z rest
          have hzlast : ys.getLast? = some z := by
            rw [← List.head?_reverse, hysrev]; rfl
          have hysne : ys ≠ [] := by
            intro hnil
            rw [hnil] at hysrev
            simp at hysrev
          have hpz : lastPrev none ys = some z := by
            rw [lastPrev_ne_nil none ys hysne, hzlast]
          have hz0 : z = 0 := by
            rcases hb2 z hzys with h0 | h1
            · exact h0
            · rw [h1] at hpz
              exact absurd hpz hp
          rw [hz0, List.takeWhile_cons]
          simp

/-- C4: for every non-empty series, `current_streak` is 0 when the last day has
zero seconds, and otherwise equals the length of the maximal run of consecutive
days with positive seconds ending at the last day. -/
theorem current_streak_spec (secs : List ℕ) (hne : secs ≠ []) :
    current_streak? secs
      = some (if secs.getLastD 0 = 0 then 0 else trailing_active_run secs) := by
  have hs : secs.getLast?.isSome := List.getLast?_isSome.mpr hne
  obtain ⟨a, ha⟩ := Option.isSome_iff_exists.mp hs
  have haD : secs.getLastD 0 = a := by rw [List.getLastD_eq_getLast?, ha]; rfl
  have hcolrev : (streakCol secs).reverse = (secs.reverse).map ind := by
    rw [streakCol, List.map_reverse]
  have hcol : (streakCol secs).getLast? = some (ind a) := by
    rw [← List.head?_reverse, hcolrev, List.head?_map, List.head?_reverse, ha]
    rfl
  by_cases ha0 : a = 0
  · have hind : ind a = 0 := by simp [ind, ha0]
    rw [current_streak?, hcol, Option.some_bind, hind]
    rw [if_neg (by decide), haD, if_pos ha0]
  · have hind : ind a = 1 := by simp [ind, Nat.pos_of_ne_zero ha0]
    rw [current_streak?, hcol, Option.some_bind, hind, if_pos rfl, haD, if_neg ha0]
    have hlen : (current_streak_col secs).length = secs.length := by
      rw [current_streak_col, groupCumsumGo_length, streakCol, List.length_map]
    have hcolne : current_streak_col secs ≠ [] := by
      apply List.ne_nil_of_length_pos
      rw [hlen]
      exact List.length_pos.mpr hne
    have hsome : (current_streak_col secs).getLast?.isSome :=
      List.getLast?_isSome.mpr hcolne
    obtain ⟨b, hb'⟩ := Option.isSome_iff_exists.mp hsome
    have hbD : (current_streak_col secs).getLastD 0 = b := by
      rw [List.getLastD_eq_getLast?, hb']; rfl
    have hbin : ∀ v ∈ streakCol secs, v = 0 ∨ v = 1 := by
      intro v hv
      obtain ⟨u, hu, rfl⟩ := List.mem_map.mp hv
      by_cases h : 0 < u <;> simp [ind, h]
    have hmain := current_col_getLastD (streakCol secs) hbin
    have hcolD : (streakCol secs).getLastD 0 = 1 := by
      rw [List.getLastD_eq_getLast?, hcol]
      exact hind
    rw [hcolD, if_pos rfl] at hmain
    have hfun : ((fun v => v == 1) ∘ ind) = (fun v => decide (0 < v)) := by
      funext v
      by_cases h : 0 < v <;> simp [Function.comp, ind, h]
    have hconv : ((streakCol secs).reverse.takeWhile (fun v => v == 1)).length
        = trailing_active_run secs := by
      rw [hcolrev, List.takeWhile_map, List.length_map, hfun, trailing_active_run]
    rw [hb']
    congr 1
    calc b = (current_streak_col secs).getLastD 0 := hbD.symm
      _ = ((streakCol secs).reverse.takeWhile (fun v => v == 1)).length := hmain
      _ = trailing_active_run secs := hconv

/-- Witness for C4 on the concrete series `[0, 300, 200]`: the trailing active
run has length 2. -/
theorem current_streak_witness : current_streak? [0, 300, 200] = some 2 := by
  rw [current_streak_spec [0, 300, 200] (by decide)]
  decide

end DSStats
